import Mathlib

/-!
# Verification of the scopeview oscilloscope signal engine

A shallow embedding of the signal synthesis and triggering engine of the
`useWaveformGenerator` hook (src/hooks/useWaveformGenerator.ts), of the
measurement engine (`calculateMeasurements`, MeasurementPanel.tsx) and of the
cursor snapping helpers (`snapToWaveform`/`snapToWaveformVoltage`,
WaveformCanvas.tsx), together with proofs about the specified behaviour.

Modelling conventions:
* JavaScript numbers are modelled as real numbers (`ℝ`).  `Math.random()`
  draws are modelled by an oracle stream `ℕ → ℝ` supplying one value per
  sample index; the app guarantees each draw lies in `[0, 1)`.
* The JavaScript division `(level - offset) / amplitude` can produce the
  non-finite values `±Infinity`/`NaN` when `amplitude = 0`; every comparison
  against those values is `false`, so they behave exactly like an absent
  result.  The embedding makes this explicit with `jsDiv`, which returns
  `none` for a zero denominator.
* The JavaScript remainder operator `%` truncates the quotient towards zero;
  it is modelled by `jsMod` below (used only with a nonzero divisor).
* React `useState`/`useRef` cells become fields of an explicit `ScopeState`
  record; one invocation of the `animate` frame callback becomes a pure
  transition function on that record.
-/

open Real

noncomputable section

/-! ## Data model (interfaces of useWaveformGenerator.ts) -/

inductive WaveformType where
  | sine
  | square
  | triangle
  | sawtooth
  deriving DecidableEq

structure WaveformSettings where
  frequency : ℝ
  amplitude : ℝ
  offset : ℝ
  waveformType : WaveformType
  noiseLevel : ℝ

inductive InputRange where
  | fiveV
  | fifteenV
  deriving DecidableEq

inductive CouplingMode where
  | AC
  | DC
  | GND
  deriving DecidableEq

inductive ProbeAttenuation where
  | oneX
  | tenX
  deriving DecidableEq

structure ChannelSettings where
  enabled : Bool
  voltsPerDivision : ℝ
  verticalOffset : ℝ
  inputRange : InputRange
  coupling : CouplingMode
  probeAttenuation : ProbeAttenuation
  waveformSettings : WaveformSettings

structure TimebaseSettings where
  timePerDivision : ℝ
  sampleRate : ℝ

inductive TriggerMode where
  | auto
  | normal
  | single
  deriving DecidableEq

inductive TriggerEdge where
  | rising
  | falling
  deriving DecidableEq

inductive TriggerSource where
  | ch1
  | ch2
  deriving DecidableEq

structure TriggerSettings where
  mode : TriggerMode
  edge : TriggerEdge
  level : ℝ
  holdoff : ℝ
  source : TriggerSource

/-- `DEFAULT_WAVEFORM_CH1` from the source. -/
def DEFAULT_WAVEFORM_CH1 : WaveformSettings :=
  { frequency := 1000, amplitude := 2.5, offset := 0,
    waveformType := .sine, noiseLevel := 0.02 }

/-- `DEFAULT_WAVEFORM_CH2` from the source. -/
def DEFAULT_WAVEFORM_CH2 : WaveformSettings :=
  { frequency := 2000, amplitude := 1.5, offset := 0,
    waveformType := .square, noiseLevel := 0.02 }

/-- `DEFAULT_CHANNEL_1` from the source. -/
def DEFAULT_CHANNEL_1 : ChannelSettings :=
  { enabled := true, voltsPerDivision := 1, verticalOffset := 0,
    inputRange := .fiveV, coupling := .DC, probeAttenuation := .oneX,
    waveformSettings := DEFAULT_WAVEFORM_CH1 }

/-- `DEFAULT_CHANNEL_2` from the source. -/
def DEFAULT_CHANNEL_2 : ChannelSettings :=
  { enabled := false, voltsPerDivision := 1, verticalOffset := 0,
    inputRange := .fiveV, coupling := .DC, probeAttenuation := .oneX,
    waveformSettings := DEFAULT_WAVEFORM_CH2 }

/-- `DEFAULT_TIMEBASE` from the source. -/
def DEFAULT_TIMEBASE : TimebaseSettings :=
  { timePerDivision := 0.001, sampleRate := 1000000 }

/-- `DEFAULT_TRIGGER` from the source. -/
def DEFAULT_TRIGGER : TriggerSettings :=
  { mode := .auto, edge := .rising, level := 0, holdoff := 0, source := .ch1 }

/-! ## JavaScript arithmetic helpers -/

/-- JavaScript floating-point division, with `none` standing for the
non-finite results `±Infinity` (nonzero numerator) and `NaN` (`0/0`) that a
zero denominator produces.  Every `<=`/`>=` comparison against a non-finite
value of this shape in the source is `false` (`NaN` compares false, and
`±Infinity` lies outside every interval checked), which is exactly how the
`none` branch is consumed below. -/
def jsDiv (a b : ℝ) : Option ℝ :=
  if b = 0 then none else some (a / b)

/-- Truncation of a real towards zero, as JavaScript's implicit quotient in
the `%` operator. -/
def truncTowardZero (x : ℝ) : ℤ :=
  if 0 ≤ x then ⌊x⌋ else ⌈x⌉

/-- The JavaScript remainder `a % b` (sign of the dividend); only used with
`b = 2π ≠ 0`. -/
def jsMod (a b : ℝ) : ℝ :=
  a - b * (truncTowardZero (a / b) : ℝ)

/-! ## WaveformSynthesizer (`generateWaveformAtPhase`) -/

/-- The `switch (waveformType)` in `generateWaveformAtPhase`, evaluated at
`x = angularFreq * t + phase`. -/
def waveformValue (waveformType : WaveformType) (x : ℝ) : ℝ :=
  match waveformType with
  | .sine => Real.sin x
  | .square => if 0 ≤ Real.sin x then 1 else -1
  | .triangle => (2 / π) * Real.arcsin (Real.sin x)
  | .sawtooth => (2 / π) * Real.arctan (Real.tan (x / 2))

/-- One loop iteration of `generateWaveformAtPhase`: raw shape value, scaled
by amplitude, shifted by offset, plus the noise term (a fresh
`Math.random()` draw per sample, supplied by the oracle `rand`). -/
def waveformSample (rand : ℕ → ℝ) (ws : WaveformSettings)
    (timeStep phase : ℝ) (i : ℕ) : ℝ :=
  let t := (i : ℝ) * timeStep
  let angularFreq := 2 * π * ws.frequency
  let value := waveformValue ws.waveformType (angularFreq * t + phase)
  let value := value * ws.amplitude + ws.offset
  if 0 < ws.noiseLevel then
    value + (rand i - 0.5) * 2 * ws.noiseLevel * ws.amplitude
  else value

/-- `generateWaveformAtPhase` from the source: `totalPoints` samples pushed
in index order. -/
def generateWaveformAtPhase (rand : ℕ → ℝ) (ws : WaveformSettings)
    (timebase : TimebaseSettings) (divisions pointsPerDivision : ℕ)
    (phase : ℝ) : List ℝ :=
  let totalTime := timebase.timePerDivision * (divisions : ℝ)
  let totalPoints := pointsPerDivision * divisions
  let timeStep := totalTime / (totalPoints : ℝ)
  (List.range totalPoints).map (waveformSample rand ws timeStep phase)

theorem generateWaveformAtPhase_length (rand : ℕ → ℝ) (ws : WaveformSettings)
    (timebase : TimebaseSettings) (divisions pointsPerDivision : ℕ) (phase : ℝ) :
    (generateWaveformAtPhase rand ws timebase divisions pointsPerDivision phase).length
      = pointsPerDivision * divisions := by
  simp [generateWaveformAtPhase]

/-! ## TriggerLocator (`findTriggerTimeOffset`) -/

/-- First `while` loop of the phase normalization:
`while (phaseOffset > Math.PI) phaseOffset -= 2 * Math.PI`. -/
def wrapDown (x : ℝ) : ℝ :=
  if h : π < x then wrapDown (x - 2 * π) else x
termination_by Nat.ceil ((x - π) / (2 * π))
decreasing_by
  have hπ := Real.pi_pos
  have h2π : (0 : ℝ) < 2 * π := by linarith
  have hy : 0 < (x - π) / (2 * π) := div_pos (by linarith) h2π
  have hceil : 1 ≤ Nat.ceil ((x - π) / (2 * π)) := Nat.ceil_pos.mpr hy
  have heq : (x - 2 * π - π) / (2 * π) = (x - π) / (2 * π) - 1 := by
    field_simp
    ring
  rw [heq]
  have hle : Nat.ceil ((x - π) / (2 * π) - 1) ≤ Nat.ceil ((x - π) / (2 * π)) - 1 := by
    apply Nat.ceil_le.mpr
    have hcast : ((Nat.ceil ((x - π) / (2 * π)) - 1 : ℕ) : ℝ)
        = (Nat.ceil ((x - π) / (2 * π)) : ℝ) - 1 := by
      push_cast [Nat.cast_sub hceil]
      ring
    rw [hcast]
    have := Nat.le_ceil ((x - π) / (2 * π))
    linarith
  omega

/-- Second `while` loop of the phase normalization:
`while (phaseOffset < -Math.PI) phaseOffset += 2 * Math.PI`. -/
def wrapUp (x : ℝ) : ℝ :=
  if h : x < -π then wrapUp (x + 2 * π) else x
termination_by Nat.ceil ((-π - x) / (2 * π))
decreasing_by
  have hπ := Real.pi_pos
  have h2π : (0 : ℝ) < 2 * π := by linarith
  have hy : 0 < (-π - x) / (2 * π) := div_pos (by linarith) h2π
  have hceil : 1 ≤ Nat.ceil ((-π - x) / (2 * π)) := Nat.ceil_pos.mpr hy
  have heq : (-π - (x + 2 * π)) / (2 * π) = (-π - x) / (2 * π) - 1 := by
    field_simp
    ring
  rw [heq]
  have hle : Nat.ceil ((-π - x) / (2 * π) - 1) ≤ Nat.ceil ((-π - x) / (2 * π)) - 1 := by
    apply Nat.ceil_le.mpr
    have hcast : ((Nat.ceil ((-π - x) / (2 * π)) - 1 : ℕ) : ℝ)
        = (Nat.ceil ((-π - x) / (2 * π)) : ℝ) - 1 := by
      push_cast [Nat.cast_sub hceil]
      ring
    rw [hcast]
    have := Nat.le_ceil ((-π - x) / (2 * π))
    linarith
  omega

/-- The two sequential `while` loops normalizing `phaseOffset`. -/
def normalizePhase (x : ℝ) : ℝ :=
  wrapUp (wrapDown x)

theorem wrapDown_le_pi (x : ℝ) : wrapDown x ≤ π := by
  induction x using wrapDown.induct with
  | case1 x h ih =>
    rw [wrapDown, dif_pos h]
    exact ih
  | case2 x h =>
    rw [wrapDown, dif_neg h]
    exact not_lt.mp h

theorem wrapDown_of_le (x : ℝ) (h : x ≤ π) : wrapDown x = x := by
  rw [wrapDown, dif_neg (not_lt.mpr h)]

theorem neg_pi_le_wrapUp (x : ℝ) : -π ≤ wrapUp x := by
  induction x using wrapUp.induct with
  | case1 x h ih =>
    rw [wrapUp, dif_pos h]
    exact ih
  | case2 x h =>
    rw [wrapUp, dif_neg h]
    exact not_lt.mp h

theorem wrapUp_le_pi (x : ℝ) : x ≤ π → wrapUp x ≤ π := by
  induction x using wrapUp.induct with
  | case1 x h ih =>
    intro _
    rw [wrapUp, dif_pos h]
    exact ih (by linarith [Real.pi_pos])
  | case2 x h =>
    intro hx
    rw [wrapUp, dif_neg h]
    exact hx

theorem wrapUp_of_ge (x : ℝ) (h : -π ≤ x) : wrapUp x = x := by
  rw [wrapUp, dif_neg (not_lt.mpr h)]

theorem normalizePhase_mem (x : ℝ) :
    -π ≤ normalizePhase x ∧ normalizePhase x ≤ π :=
  ⟨neg_pi_le_wrapUp _, wrapUp_le_pi _ (wrapDown_le_pi x)⟩

/-- The crossing test of the sampling loop:
`risingCross || fallingCross` for one adjacent sample pair. -/
abbrev isCrossing (edge : TriggerEdge) (level prev curr : ℝ) : Prop :=
  (edge = .rising ∧ prev < level ∧ level ≤ curr) ∨
  (edge = .falling ∧ level < prev ∧ curr ≤ level)

/-- The `for (let i = 1; i < totalPoints; i++)` scan over adjacent sample
pairs, returning `-(i * timeStep)` at the first crossing.  The list argument
holds the samples from index `i - 1` on. -/
def scanForCrossing (edge : TriggerEdge) (level timeStep : ℝ) :
    List ℝ → ℕ → Option ℝ
  | prev :: curr :: rest, i =>
      if isCrossing edge level prev curr then some (-((i : ℝ) * timeStep))
      else scanForCrossing edge level timeStep (curr :: rest) (i + 1)
  | _, _ => none

theorem scanForCrossing_cons (edge : TriggerEdge) (level timeStep a b : ℝ)
    (rest : List ℝ) (i : ℕ) :
    scanForCrossing edge level timeStep (a :: b :: rest) i
      = if isCrossing edge level a b then some (-((i : ℝ) * timeStep))
        else scanForCrossing edge level timeStep (b :: rest) (i + 1) := rfl

theorem scanForCrossing_eq_none (edge : TriggerEdge) (level timeStep : ℝ)
    (l : List ℝ) (h : ∀ p ∈ l, ∀ c ∈ l, ¬ isCrossing edge level p c) :
    ∀ i, scanForCrossing edge level timeStep l i = none := by
  induction l with
  | nil => intro i; rfl
  | cons a tl ih =>
    intro i
    match tl with
    | [] => rfl
    | b :: rest =>
      rw [scanForCrossing,
        if_neg (h a (by simp) b (by simp))]
      exact ih (fun p hp c hc => h p (by simp [hp]) c (by simp [hc])) (i + 1)

/-- `triggerChannel` selection at the top of `findTriggerTimeOffset`. -/
def triggerChannel (triggerSettings : TriggerSettings)
    (channel1 channel2 : ChannelSettings) : ChannelSettings :=
  match triggerSettings.source with
  | .ch1 => channel1
  | .ch2 => channel2

/-- The clamped angular frequency
`2 * Math.PI * Math.max(frequency, 1e-6)` of `findTriggerTimeOffset`. -/
def clampedAngularFreq (frequency : ℝ) : ℝ :=
  2 * π * max frequency 1e-6

/-- `triggerPhase` of the analytic sine branch: `asin(normalizedLevel)`,
reflected to `π - asin(normalizedLevel)` for a falling edge. -/
def sineTriggerPhase (edge : TriggerEdge) (normalizedLevel : ℝ) : ℝ :=
  let triggerPhase := Real.arcsin normalizedLevel
  if edge = .falling then π - triggerPhase else triggerPhase

/-- The analytic sine branch of `findTriggerTimeOffset` (lines 170-192 of
the source): `Some` is the early `return phaseOffset / angularFreq`; `none`
is reaching the sampling fallback, which happens when the shape is not
sine, or the normalized level is non-finite (`jsDiv` gave `none`), or it
lies outside `[-1, 1]`. -/
def sineAnalyticOffset (ws : WaveformSettings) (triggerSettings : TriggerSettings)
    (currentPhase : ℝ) : Option ℝ :=
  if ws.waveformType = .sine then
    match jsDiv (triggerSettings.level - ws.offset) ws.amplitude with
    | some normalizedLevel =>
        if -1 ≤ normalizedLevel ∧ normalizedLevel ≤ 1 then
          let currentCyclePhase := jsMod currentPhase (2 * π)
          let phaseOffset :=
            normalizePhase (sineTriggerPhase triggerSettings.edge normalizedLevel
              - currentCyclePhase)
          some (phaseOffset / clampedAngularFreq ws.frequency)
        else none
    | none => none
  else none

/-- `findTriggerTimeOffset` from the source. -/
def findTriggerTimeOffset (rt : ℕ → ℝ) (channel1 channel2 : ChannelSettings)
    (triggerSettings : TriggerSettings) (timebase : TimebaseSettings)
    (divisions pointsPerDivision : ℕ) (currentPhase : ℝ) : Option ℝ :=
  let ws := (triggerChannel triggerSettings channel1 channel2).waveformSettings
  match sineAnalyticOffset ws triggerSettings currentPhase with
  | some v => some v
  | none =>
      let testData :=
        generateWaveformAtPhase rt ws timebase divisions pointsPerDivision currentPhase
      let totalPoints := testData.length
      let totalTime := timebase.timePerDivision * (divisions : ℝ)
      let timeStep := totalTime / (totalPoints : ℝ)
      scanForCrossing triggerSettings.edge triggerSettings.level timeStep testData 1

/-! ## TriggerStateMachine (`animate`, `shouldTrigger`, `resetPhase`,
`armTrigger`) -/

/-- The configuration inputs of the hook: the four settings records plus the
`divisions`/`pointsPerDivision` arguments.  These are mutated only by the
UI, never inside a tick, so a tick reads them as constants. -/
structure ScopeConfig where
  channel1 : ChannelSettings
  channel2 : ChannelSettings
  timebaseSettings : TimebaseSettings
  triggerSettings : TriggerSettings
  divisions : ℕ
  pointsPerDivision : ℕ

/-- The mutable state of the hook: the `useState` cells and `useRef` cells
written by the tick handler. -/
structure ScopeState where
  phaseCh1 : ℝ
  phaseCh2 : ℝ
  triggeredPhaseCh1 : ℝ
  triggeredPhaseCh2 : ℝ
  lastTriggerTime : ℝ
  autoTriggerCounter : ℕ
  frozenDataCh1 : List ℝ
  frozenDataCh2 : List ℝ
  waveformDataCh1 : List ℝ
  waveformDataCh2 : List ℝ
  isRunning : Bool
  isTriggered : Bool
  triggerArmed : Bool

/-- The initial values of the `useState`/`useRef` cells. -/
def initialState : ScopeState :=
  { phaseCh1 := 0, phaseCh2 := 0, triggeredPhaseCh1 := 0, triggeredPhaseCh2 := 0,
    lastTriggerTime := 0, autoTriggerCounter := 0,
    frozenDataCh1 := [], frozenDataCh2 := [],
    waveformDataCh1 := [], waveformDataCh2 := [],
    isRunning := true, isTriggered := false, triggerArmed := true }

/-- `shouldTrigger` from the source: the holdoff gate followed by the
single-mode armed gate. -/
def shouldTrigger (cfg : ScopeConfig) (triggerArmed : Bool)
    (lastTriggerTime currentTime : ℝ) : Bool :=
  if 0 < cfg.triggerSettings.holdoff ∧
      currentTime - lastTriggerTime < cfg.triggerSettings.holdoff * 1000 then
    false
  else if cfg.triggerSettings.mode = .single ∧ triggerArmed = false then
    false
  else
    true

/-- The per-channel phase advance and single-subtraction wrap at the top of
`animate`:
`phaseRef.current += (2 * Math.PI * frequency) / 60;`
`if (phaseRef.current > 2 * Math.PI * 100) phaseRef.current -= 2 * Math.PI * 100;` -/
def advancePhase (frequency phase : ℝ) : ℝ :=
  let p := phase + 2 * π * frequency / 60
  if 2 * π * 100 < p then p - 2 * π * 100 else p

/-- Channel 1 accumulator value after this tick's advance-and-wrap step. -/
def tickPhase1 (cfg : ScopeConfig) (s : ScopeState) : ℝ :=
  advancePhase cfg.channel1.waveformSettings.frequency s.phaseCh1

/-- Channel 2 accumulator value after this tick's advance-and-wrap step. -/
def tickPhase2 (cfg : ScopeConfig) (s : ScopeState) : ℝ :=
  advancePhase cfg.channel2.waveformSettings.frequency s.phaseCh2

/-- The accumulator phase handed to `findTriggerTimeOffset` this tick: the
configured source channel's freshly advanced phase. -/
def tickSourcePhase (cfg : ScopeConfig) (s : ScopeState) : ℝ :=
  match cfg.triggerSettings.source with
  | .ch1 => tickPhase1 cfg s
  | .ch2 => tickPhase2 cfg s

/-- The crossing-found branch of `animate` (`dt !== null`): compute both
triggered phases, synthesize and publish buffers for the enabled channels,
freeze them, record the trigger, and in single mode disarm and stop.
`s1` is the state with the accumulators already advanced this tick. -/
def triggerFire (r1 r2 : ℕ → ℝ) (cfg : ScopeConfig) (s1 : ScopeState)
    (timestamp dt : ℝ) : ScopeState :=
  let tp1 := s1.phaseCh1 + dt * (2 * π * cfg.channel1.waveformSettings.frequency)
  let tp2 := s1.phaseCh2 + dt * (2 * π * cfg.channel2.waveformSettings.frequency)
  let newDataCh1 :=
    if cfg.channel1.enabled then
      generateWaveformAtPhase r1 cfg.channel1.waveformSettings
        cfg.timebaseSettings cfg.divisions cfg.pointsPerDivision tp1
    else []
  let newDataCh2 :=
    if cfg.channel2.enabled then
      generateWaveformAtPhase r2 cfg.channel2.waveformSettings
        cfg.timebaseSettings cfg.divisions cfg.pointsPerDivision tp2
    else []
  let s2 := { s1 with
    triggeredPhaseCh1 := tp1, triggeredPhaseCh2 := tp2,
    frozenDataCh1 := newDataCh1, frozenDataCh2 := newDataCh2,
    waveformDataCh1 := newDataCh1, waveformDataCh2 := newDataCh2,
    isTriggered := true, lastTriggerTime := timestamp,
    autoTriggerCounter := 0 }
  if cfg.triggerSettings.mode = .single then
    { s2 with triggerArmed := false, isRunning := false }
  else s2

/-- The auto-mode no-crossing branch of `animate`: increment the no-trigger
counter; once it exceeds 30, publish buffers synthesized at the raw
accumulator phases, clear `isTriggered`, and reset the counter. -/
def autoTimeoutStep (r1 r2 : ℕ → ℝ) (cfg : ScopeConfig) (s1 : ScopeState) :
    ScopeState :=
  let counter := s1.autoTriggerCounter + 1
  if 30 < counter then
    { s1 with
      waveformDataCh1 :=
        if cfg.channel1.enabled then
          generateWaveformAtPhase r1 cfg.channel1.waveformSettings
            cfg.timebaseSettings cfg.divisions cfg.pointsPerDivision s1.phaseCh1
        else [],
      waveformDataCh2 :=
        if cfg.channel2.enabled then
          generateWaveformAtPhase r2 cfg.channel2.waveformSettings
            cfg.timebaseSettings cfg.divisions cfg.pointsPerDivision s1.phaseCh2
        else [],
      isTriggered := false, autoTriggerCounter := 0 }
  else
    { s1 with autoTriggerCounter := counter }

/-- The normal-mode no-crossing branch of `animate`: re-publish the frozen
buffers when nonempty and clear `isTriggered`. -/
def normalHold (s1 : ScopeState) : ScopeState :=
  let s2 :=
    if 0 < s1.frozenDataCh1.length then
      { s1 with waveformDataCh1 := s1.frozenDataCh1 }
    else s1
  let s3 :=
    if 0 < s2.frozenDataCh2.length then
      { s2 with waveformDataCh2 := s2.frozenDataCh2 }
    else s2
  { s3 with isTriggered := false }

/-- One invocation of the `animate` frame callback as a pure state
transition.  `r1`/`r2` supply the `Math.random()` draws of the two
channel-publishing `generateWaveformAtPhase` calls, `rt` those of the test
buffer inside `findTriggerTimeOffset`; `timestamp` is the scheduler's
monotonic timestamp. -/
def animate (r1 r2 rt : ℕ → ℝ) (cfg : ScopeConfig) (s : ScopeState)
    (timestamp : ℝ) : ScopeState :=
  let s1 : ScopeState := { s with phaseCh1 := tickPhase1 cfg s, phaseCh2 := tickPhase2 cfg s }
  if shouldTrigger cfg s.triggerArmed s.lastTriggerTime timestamp then
    match findTriggerTimeOffset rt cfg.channel1 cfg.channel2 cfg.triggerSettings
        cfg.timebaseSettings cfg.divisions cfg.pointsPerDivision
        (tickSourcePhase cfg s) with
    | some dt => triggerFire r1 r2 cfg s1 timestamp dt
    | none =>
        match cfg.triggerSettings.mode with
        | .auto => autoTimeoutStep r1 r2 cfg s1
        | .normal => normalHold s1
        | .single => s1
  else s1

/-- `resetPhase` from the source: zero both accumulators and triggered-phase
caches, clear the trigger timestamp and the no-trigger counter, empty the
frozen buffers, re-arm. -/
def resetPhase (s : ScopeState) : ScopeState :=
  { s with
    phaseCh1 := 0, phaseCh2 := 0,
    triggeredPhaseCh1 := 0, triggeredPhaseCh2 := 0,
    lastTriggerTime := 0, autoTriggerCounter := 0,
    frozenDataCh1 := [], frozenDataCh2 := [],
    triggerArmed := true }

/-- `armTrigger` from the source: arm, and in single mode resume running
when stopped. -/
def armTrigger (mode : TriggerMode) (s : ScopeState) : ScopeState :=
  let s1 := { s with triggerArmed := true }
  if s.isRunning = false ∧ mode = .single then
    { s1 with isRunning := true }
  else s1

/-! ## MeasurementEngine (`calculateMeasurements`, MeasurementPanel.tsx) -/

structure Measurements where
  vMax : ℝ
  vMin : ℝ
  vPP : ℝ
  vRMS : ℝ
  frequency : ℝ
  period : ℝ
  dutyCycle : ℝ
  deriving DecidableEq

/-- The adjacent-pair zero-crossing count
(`(data[i-1] - mean) * (data[i] - mean) < 0`). -/
def countZeroCrossings (mean : ℝ) : List ℝ → ℕ
  | prev :: curr :: rest =>
      (if (prev - mean) * (curr - mean) < 0 then 1 else 0)
        + countZeroCrossings mean (curr :: rest)
  | _ => 0

/-- `calculateMeasurements` from MeasurementPanel.tsx.  The early return for
an empty buffer yields the all-zero record; otherwise `Math.max(...data)` /
`Math.min(...data)` are folds over the nonempty list, `reduce` sums, and the
loop counts sign changes around the mean. -/
def calculateMeasurements (data : List ℝ) (timePerDivision : ℝ)
    (divisions : ℕ) : Measurements :=
  match data with
  | [] =>
      { vMax := 0, vMin := 0, vPP := 0, vRMS := 0,
        frequency := 0, period := 0, dutyCycle := 0 }
  | x :: xs =>
      let vMax := xs.foldl max x
      let vMin := xs.foldl min x
      let vPP := vMax - vMin
      let n := ((x :: xs).length : ℝ)
      let sumSquares := (x :: xs).foldl (fun sum val => sum + val * val) 0
      let vRMS := Real.sqrt (sumSquares / n)
      let mean := (x :: xs).foldl (· + ·) 0 / n
      let zeroCrossings := countZeroCrossings mean (x :: xs)
      let totalTime := timePerDivision * (divisions : ℝ)
      let frequency := ((zeroCrossings : ℝ) / 2) / totalTime
      let period := if 0 < frequency then 1 / frequency else 0
      let samplesAboveMean := ((x :: xs).filter (fun v => mean < v)).length
      let dutyCycle := ((samplesAboveMean : ℝ) / n) * 100
      { vMax := vMax, vMin := vMin, vPP := vPP, vRMS := vRMS,
        frequency := frequency, period := period, dutyCycle := dutyCycle }

/-! ## CursorSnapper (`findPeaksAndValleys`, `snapToWaveform`,
`snapToWaveformVoltage`, WaveformCanvas.tsx) -/

/-- `SNAP_RADIUS` from WaveformCanvas.tsx. -/
def SNAP_RADIUS : ℝ := 15

/-- `findPeaksAndValleys`: indices `1 ≤ i < length - 1` that are strict
local maxima (peaks) or strict local minima (valleys).  The source's
`else if` cannot fire together with the peak test, so two independent
filters are equivalent to the loop. -/
def findPeaksAndValleys (data : List ℝ) : List ℕ × List ℕ :=
  let peaks := (List.range data.length).filter fun i =>
    0 < i ∧ i + 1 < data.length ∧
      data.getD (i - 1) 0 < data.getD i 0 ∧ data.getD (i + 1) 0 < data.getD i 0
  let valleys := (List.range data.length).filter fun i =>
    0 < i ∧ i + 1 < data.length ∧
      data.getD i 0 < data.getD (i - 1) 0 ∧ data.getD i 0 < data.getD (i + 1) 0
  (peaks, valleys)

/-- `snapToWaveform` from WaveformCanvas.tsx.  The source's sentinel pair
`closestPoint = -1` / `closestDistance = Infinity` is modelled by an
`Option`: `none` while no extremum within `SNAP_RADIUS` has been seen, and
`some (index, distance)` for the best candidate so far (any finite distance
compares `<` against `Infinity`, so the first in-radius candidate always
replaces the sentinel). -/
def snapToWaveform (data : List ℝ) (normalizedX width : ℝ) : ℝ :=
  if data.length = 0 then normalizedX
  else
    let (peaks, valleys) := findPeaksAndValleys data
    let allPoints := peaks ++ valleys
    let mouseXPixel := normalizedX * width
    let pixelsPerPoint := width / (data.length : ℝ)
    let best := allPoints.foldl
      (fun (acc : Option (ℕ × ℝ)) (pointIndex : ℕ) =>
        let pointXPixel := (pointIndex : ℝ) * pixelsPerPoint
        let distance := |mouseXPixel - pointXPixel|
        match acc with
        | none =>
            if distance < SNAP_RADIUS then some (pointIndex, distance) else none
        | some (bestPoint, bestDistance) =>
            if distance < bestDistance ∧ distance < SNAP_RADIUS then
              some (pointIndex, distance)
            else some (bestPoint, bestDistance))
      (none : Option (ℕ × ℝ))
    match best with
    | some (closestPoint, _) => (closestPoint : ℝ) / (data.length : ℝ)
    | none => normalizedX

/-- `snapToWaveformVoltage` from WaveformCanvas.tsx.  The accumulator keeps
the source's `closestY` sentinel (initially `-1`) verbatim and models the
`closestDistance = Infinity` sentinel with an `Option ℝ`. -/
def snapToWaveformVoltage (data : List ℝ)
    (voltsPerDivision verticalOffset : ℝ) (divisions : ℕ)
    (normalizedY height : ℝ) : ℝ :=
  if data.length = 0 then normalizedY
  else
    let voltsRange := voltsPerDivision * (divisions : ℝ)
    let centerY := height / 2
    let pixelsPerVolt := height / voltsRange
    let (peaks, valleys) := findPeaksAndValleys data
    let significantPoints := peaks ++ valleys
    let mouseYPixel := normalizedY * height
    let best := significantPoints.foldl
      (fun (acc : ℝ × Option ℝ) pointIndex =>
        let voltage := data.getD pointIndex 0
        let yPixel := centerY - (voltage + verticalOffset) * pixelsPerVolt
        let distance := |mouseYPixel - yPixel|
        match acc with
        | (closestY, none) =>
            if distance < SNAP_RADIUS then (yPixel / height, some distance)
            else (closestY, none)
        | (closestY, some closestDistance) =>
            if distance < closestDistance ∧ distance < SNAP_RADIUS then
              (yPixel / height, some distance)
            else (closestY, some closestDistance))
      ((-1 : ℝ), (none : Option ℝ))
    if 0 ≤ best.1 then best.1 else normalizedY

/-! ## Helper lemmas about the synthesizer and the locator -/

theorem jsDiv_eq_some {a b c : ℝ} (h : jsDiv a b = some c) :
    b ≠ 0 ∧ c = a / b := by
  unfold jsDiv at h
  split at h
  · exact absurd h (by simp)
  · exact ⟨by assumption, (Option.some_injective _ h).symm⟩

theorem waveformValue_abs_le (waveformType : WaveformType) (x : ℝ) :
    |waveformValue waveformType x| ≤ 1 := by
  have hπ := Real.pi_pos
  cases waveformType with
  | sine =>
    exact abs_le.mpr ⟨Real.neg_one_le_sin x, Real.sin_le_one x⟩
  | square =>
    show |if 0 ≤ Real.sin x then (1 : ℝ) else -1| ≤ 1
    split <;> simp
  | triangle =>
    show |2 / π * Real.arcsin (Real.sin x)| ≤ 1
    rw [abs_mul]
    have h1 : |Real.arcsin (Real.sin x)| ≤ π / 2 :=
      abs_le.mpr ⟨Real.neg_pi_div_two_le_arcsin _, Real.arcsin_le_pi_div_two _⟩
    have h2 : |2 / π| = 2 / π := abs_of_pos (by positivity)
    rw [h2]
    calc 2 / π * |Real.arcsin (Real.sin x)| ≤ 2 / π * (π / 2) := by
          exact mul_le_mul_of_nonneg_left h1 (by positivity)
      _ = 1 := by field_simp
  | sawtooth =>
    show |2 / π * Real.arctan (Real.tan (x / 2))| ≤ 1
    rw [abs_mul]
    have h1 : |Real.arctan (Real.tan (x / 2))| ≤ π / 2 :=
      abs_le.mpr ⟨(Real.neg_pi_div_two_lt_arctan _).le, (Real.arctan_lt_pi_div_two _).le⟩
    have h2 : |2 / π| = 2 / π := abs_of_pos (by positivity)
    rw [h2]
    calc 2 / π * |Real.arctan (Real.tan (x / 2))| ≤ 2 / π * (π / 2) := by
          exact mul_le_mul_of_nonneg_left h1 (by positivity)
      _ = 1 := by field_simp

/-- With the noise term disabled, every synthesized sample stays within
`|amplitude|` of `offset`. -/
theorem waveformSample_sub_offset_le (rand : ℕ → ℝ) (ws : WaveformSettings)
    (timeStep phase : ℝ) (i : ℕ) (hnoise : ws.noiseLevel = 0) :
    |waveformSample rand ws timeStep phase i - ws.offset| ≤ |ws.amplitude| := by
  unfold waveformSample
  rw [hnoise, if_neg (lt_irrefl 0)]
  have h := waveformValue_abs_le ws.waveformType
    (2 * π * ws.frequency * ((i : ℝ) * timeStep) + phase)
  calc |waveformValue ws.waveformType (2 * π * ws.frequency * ((i : ℝ) * timeStep) + phase)
          * ws.amplitude + ws.offset - ws.offset|
      = |waveformValue ws.waveformType (2 * π * ws.frequency * ((i : ℝ) * timeStep) + phase)|
          * |ws.amplitude| := by
        rw [add_sub_cancel_right, abs_mul]
    _ ≤ 1 * |ws.amplitude| := mul_le_mul_of_nonneg_right h (abs_nonneg _)
    _ = |ws.amplitude| := one_mul _

/-- With amplitude zero, every synthesized sample equals the offset (the
noise term is scaled by the amplitude as well). -/
theorem waveformSample_amp_zero (rand : ℕ → ℝ) (ws : WaveformSettings)
    (timeStep phase : ℝ) (i : ℕ) (hamp : ws.amplitude = 0) :
    waveformSample rand ws timeStep phase i = ws.offset := by
  unfold waveformSample
  rw [hamp]
  split <;> ring

/-- Peel the first three entries off a mapped index range. -/
theorem map_range_peel3 (f : ℕ → ℝ) (n : ℕ) :
    (List.range (n + 3)).map f = f 0 :: f 1 :: f 2 :: (List.range' 3 n).map f := by
  rw [List.range_eq_range', show n + 3 = (n + 2) + 1 by ring, List.range'_succ,
    show n + 2 = (n + 1) + 1 by ring, List.range'_succ, List.range'_succ,
    List.map_cons, List.map_cons, List.map_cons]

theorem mem_generateWaveformAtPhase {rand : ℕ → ℝ} {ws : WaveformSettings}
    {timebase : TimebaseSettings} {divisions pointsPerDivision : ℕ} {phase x : ℝ}
    (hx : x ∈ generateWaveformAtPhase rand ws timebase divisions pointsPerDivision phase) :
    ∃ i, waveformSample rand ws
      (timebase.timePerDivision * (divisions : ℝ) / ((pointsPerDivision * divisions : ℕ) : ℝ))
      phase i = x := by
  unfold generateWaveformAtPhase at hx
  simp only [List.mem_map, List.mem_range] at hx
  obtain ⟨i, _, hi⟩ := hx
  exact ⟨i, hi⟩

/-- When the sine-branch guard is missed, `findTriggerTimeOffset` runs the
sampling scan. -/
theorem findTriggerTimeOffset_eq_none_of_one_sided (rt : ℕ → ℝ)
    (channel1 channel2 : ChannelSettings) (triggerSettings : TriggerSettings)
    (timebase : TimebaseSettings) (divisions pointsPerDivision : ℕ)
    (currentPhase : ℝ)
    (hguard :
      sineAnalyticOffset (triggerChannel triggerSettings channel1 channel2).waveformSettings
        triggerSettings currentPhase = none)
    (hside :
      (∀ x ∈ generateWaveformAtPhase rt
          (triggerChannel triggerSettings channel1 channel2).waveformSettings
          timebase divisions pointsPerDivision currentPhase, x < triggerSettings.level) ∨
      (∀ x ∈ generateWaveformAtPhase rt
          (triggerChannel triggerSettings channel1 channel2).waveformSettings
          timebase divisions pointsPerDivision currentPhase, triggerSettings.level < x)) :
    findTriggerTimeOffset rt channel1 channel2 triggerSettings timebase
      divisions pointsPerDivision currentPhase = none := by
  simp only [findTriggerTimeOffset]
  rw [hguard]
  apply scanForCrossing_eq_none
  intro p hp c hc
  intro hcross
  rcases hside with hall | hall
  · rcases hcross with ⟨_, _, hlc⟩ | ⟨_, hlp, _⟩
    · exact absurd hlc (not_le.mpr (hall c hc))
    · exact absurd hlp (not_lt.mpr (hall p hp).le)
  · rcases hcross with ⟨_, hpl, _⟩ | ⟨_, _, hcl⟩
    · exact absurd hpl (not_lt.mpr (hall p hp).le)
    · exact absurd hcl (not_le.mpr (hall c hc))

theorem sineAnalyticOffset_eq_some {ws : WaveformSettings}
    {triggerSettings : TriggerSettings} {currentPhase nl : ℝ}
    (hshape : ws.waveformType = .sine)
    (hdiv : jsDiv (triggerSettings.level - ws.offset) ws.amplitude = some nl)
    (hin : -1 ≤ nl ∧ nl ≤ 1) :
    sineAnalyticOffset ws triggerSettings currentPhase
      = some (normalizePhase (sineTriggerPhase triggerSettings.edge nl
          - jsMod currentPhase (2 * π)) / clampedAngularFreq ws.frequency) := by
  unfold sineAnalyticOffset
  rw [if_pos hshape, hdiv]
  exact if_pos hin

theorem sineAnalyticOffset_eq_none_of_outRange {ws : WaveformSettings}
    {triggerSettings : TriggerSettings} {currentPhase nl : ℝ}
    (hdiv : jsDiv (triggerSettings.level - ws.offset) ws.amplitude = some nl)
    (hout : nl < -1 ∨ 1 < nl) :
    sineAnalyticOffset ws triggerSettings currentPhase = none := by
  have hc : ¬(-1 ≤ nl ∧ nl ≤ 1) := by
    rcases hout with h | h
    · exact fun hin => absurd hin.1 (not_le.mpr h)
    · exact fun hin => absurd hin.2 (not_le.mpr h)
  unfold sineAnalyticOffset
  split
  · rw [hdiv]
    exact if_neg hc
  · rfl

theorem sineAnalyticOffset_eq_none_of_amp_zero {ws : WaveformSettings}
    {triggerSettings : TriggerSettings} {currentPhase : ℝ}
    (hamp : ws.amplitude = 0) :
    sineAnalyticOffset ws triggerSettings currentPhase = none := by
  have hnone : jsDiv (triggerSettings.level - ws.offset) ws.amplitude = none := by
    unfold jsDiv
    rw [if_pos hamp]
  unfold sineAnalyticOffset
  split
  · rw [hnone]
  · rfl

/-- For a sine trigger source with the noise term disabled and the
normalized level strictly outside `[-1, 1]`, `findTriggerTimeOffset`
returns `none`: the analytic guard falls through, and every synthesized
sample lies strictly on one side of the level so the scan finds no
crossing. -/
theorem findTriggerTimeOffset_outRange_none (rt : ℕ → ℝ)
    (channel1 channel2 : ChannelSettings) (triggerSettings : TriggerSettings)
    (timebase : TimebaseSettings) (divisions pointsPerDivision : ℕ)
    (currentPhase nl : ℝ)
    (hnoise : (triggerChannel triggerSettings channel1 channel2).waveformSettings.noiseLevel = 0)
    (hdiv : jsDiv (triggerSettings.level
        - (triggerChannel triggerSettings channel1 channel2).waveformSettings.offset)
        (triggerChannel triggerSettings channel1 channel2).waveformSettings.amplitude = some nl)
    (hout : nl < -1 ∨ 1 < nl) :
    findTriggerTimeOffset rt channel1 channel2 triggerSettings timebase
      divisions pointsPerDivision currentPhase = none := by
  set ws := (triggerChannel triggerSettings channel1 channel2).waveformSettings with hws
  obtain ⟨hamp, hnl⟩ := jsDiv_eq_some hdiv
  have hAabs : 0 < |ws.amplitude| := abs_pos.mpr hamp
  have habs : |ws.amplitude| < |triggerSettings.level - ws.offset| := by
    rw [hnl] at hout
    have h1 : 1 < |(triggerSettings.level - ws.offset) / ws.amplitude| := by
      rcases hout with h | h
      · calc 1 < -((triggerSettings.level - ws.offset) / ws.amplitude) := by linarith
          _ ≤ |(triggerSettings.level - ws.offset) / ws.amplitude| := neg_le_abs _
      · exact lt_of_lt_of_le h (le_abs_self _)
    rw [abs_div] at h1
    calc |ws.amplitude| = 1 * |ws.amplitude| := (one_mul _).symm
      _ < |triggerSettings.level - ws.offset| / |ws.amplitude| * |ws.amplitude| := by
          exact mul_lt_mul_of_pos_right h1 hAabs
      _ = |triggerSettings.level - ws.offset| := by
          field_simp
  apply findTriggerTimeOffset_eq_none_of_one_sided
  · exact sineAnalyticOffset_eq_none_of_outRange hdiv hout
  · have hbound : ∀ x ∈ generateWaveformAtPhase rt ws timebase divisions
        pointsPerDivision currentPhase, |x - ws.offset| ≤ |ws.amplitude| := by
      intro x hx
      obtain ⟨i, hi⟩ := mem_generateWaveformAtPhase hx
      rw [← hi]
      exact waveformSample_sub_offset_le rt ws _ currentPhase i hnoise
    rcases lt_abs.mp habs with h | h
    · -- level − offset exceeds |amplitude|: every sample is below the level
      left
      intro x hx
      have := hbound x hx
      have hxle : x - ws.offset ≤ |ws.amplitude| := le_of_abs_le this
      linarith
    · -- offset − level exceeds |amplitude|: every sample is above the level
      right
      intro x hx
      have := hbound x hx
      have hxge : -|ws.amplitude| ≤ x - ws.offset := neg_le_of_abs_le this
      linarith

/-- With the trigger-source amplitude zero, `findTriggerTimeOffset` returns
`none` for a sine source: the normalization yields no finite value, and in
the fallback every sample equals the offset, so no strict crossing exists. -/
theorem findTriggerTimeOffset_amp_zero_none (rt : ℕ → ℝ)
    (channel1 channel2 : ChannelSettings) (triggerSettings : TriggerSettings)
    (timebase : TimebaseSettings) (divisions pointsPerDivision : ℕ)
    (currentPhase : ℝ)
    (hamp : (triggerChannel triggerSettings channel1 channel2).waveformSettings.amplitude = 0) :
    findTriggerTimeOffset rt channel1 channel2 triggerSettings timebase
      divisions pointsPerDivision currentPhase = none := by
  set ws := (triggerChannel triggerSettings channel1 channel2).waveformSettings with hws
  simp only [findTriggerTimeOffset]
  rw [sineAnalyticOffset_eq_none_of_amp_zero hamp]
  apply scanForCrossing_eq_none
  intro p hp c hc
  obtain ⟨i, hi⟩ := mem_generateWaveformAtPhase hp
  obtain ⟨j, hj⟩ := mem_generateWaveformAtPhase hc
  have hpv : p = ws.offset := by
    rw [← hi]; exact waveformSample_amp_zero rt ws _ currentPhase i hamp
  have hcv : c = ws.offset := by
    rw [← hj]; exact waveformSample_amp_zero rt ws _ currentPhase j hamp
  subst hpv hcv
  rintro (⟨_, h1, h2⟩ | ⟨_, h1, h2⟩) <;> linarith

/-- For a sine trigger source with in-range finite normalized level,
`findTriggerTimeOffset` returns the analytic offset. -/
theorem findTriggerTimeOffset_inRange_some (rt : ℕ → ℝ)
    (channel1 channel2 : ChannelSettings) (triggerSettings : TriggerSettings)
    (timebase : TimebaseSettings) (divisions pointsPerDivision : ℕ)
    (currentPhase nl : ℝ)
    (hshape : (triggerChannel triggerSettings channel1 channel2).waveformSettings.waveformType
      = .sine)
    (hdiv : jsDiv (triggerSettings.level
        - (triggerChannel triggerSettings channel1 channel2).waveformSettings.offset)
        (triggerChannel triggerSettings channel1 channel2).waveformSettings.amplitude = some nl)
    (hin : -1 ≤ nl ∧ nl ≤ 1) :
    findTriggerTimeOffset rt channel1 channel2 triggerSettings timebase
      divisions pointsPerDivision currentPhase
      = some (normalizePhase (sineTriggerPhase triggerSettings.edge nl
          - jsMod currentPhase (2 * π))
        / clampedAngularFreq
          (triggerChannel triggerSettings channel1 channel2).waveformSettings.frequency) := by
  simp only [findTriggerTimeOffset]
  rw [sineAnalyticOffset_eq_some hshape hdiv hin]

/-! ## Helper lemmas about the tick transition -/

theorem triggerFire_phaseCh1 (r1 r2 : ℕ → ℝ) (cfg : ScopeConfig)
    (s1 : ScopeState) (timestamp dt : ℝ) :
    (triggerFire r1 r2 cfg s1 timestamp dt).phaseCh1 = s1.phaseCh1 := by
  simp only [triggerFire]
  split <;> rfl

theorem triggerFire_phaseCh2 (r1 r2 : ℕ → ℝ) (cfg : ScopeConfig)
    (s1 : ScopeState) (timestamp dt : ℝ) :
    (triggerFire r1 r2 cfg s1 timestamp dt).phaseCh2 = s1.phaseCh2 := by
  simp only [triggerFire]
  split <;> rfl

theorem autoTimeoutStep_phaseCh1 (r1 r2 : ℕ → ℝ) (cfg : ScopeConfig)
    (s1 : ScopeState) :
    (autoTimeoutStep r1 r2 cfg s1).phaseCh1 = s1.phaseCh1 := by
  simp only [autoTimeoutStep]
  split <;> rfl

theorem autoTimeoutStep_phaseCh2 (r1 r2 : ℕ → ℝ) (cfg : ScopeConfig)
    (s1 : ScopeState) :
    (autoTimeoutStep r1 r2 cfg s1).phaseCh2 = s1.phaseCh2 := by
  simp only [autoTimeoutStep]
  split <;> rfl

theorem normalHold_phaseCh1 (s1 : ScopeState) :
    (normalHold s1).phaseCh1 = s1.phaseCh1 := by
  simp only [normalHold]
  split <;> split <;> rfl

theorem normalHold_phaseCh2 (s1 : ScopeState) :
    (normalHold s1).phaseCh2 = s1.phaseCh2 := by
  simp only [normalHold]
  split <;> split <;> rfl

/-- Every branch of `animate` leaves the channel-1 accumulator at its
advanced-and-wrapped value. -/
theorem animate_phaseCh1 (r1 r2 rt : ℕ → ℝ) (cfg : ScopeConfig) (s : ScopeState)
    (timestamp : ℝ) :
    (animate r1 r2 rt cfg s timestamp).phaseCh1 = tickPhase1 cfg s := by
  simp only [animate]
  split
  · split
    · rw [triggerFire_phaseCh1]
    · split
      · rw [autoTimeoutStep_phaseCh1]
      · rw [normalHold_phaseCh1]
      · rfl
  · rfl

/-- Every branch of `animate` leaves the channel-2 accumulator at its
advanced-and-wrapped value. -/
theorem animate_phaseCh2 (r1 r2 rt : ℕ → ℝ) (cfg : ScopeConfig) (s : ScopeState)
    (timestamp : ℝ) :
    (animate r1 r2 rt cfg s timestamp).phaseCh2 = tickPhase2 cfg s := by
  simp only [animate]
  split
  · split
    · rw [triggerFire_phaseCh2]
    · split
      · rw [autoTimeoutStep_phaseCh2]
      · rw [normalHold_phaseCh2]
      · rfl
  · rfl

/-- In single mode, the crossing-found branch disarms and stops. -/
theorem triggerFire_single_latch (r1 r2 : ℕ → ℝ) (cfg : ScopeConfig)
    (s1 : ScopeState) (timestamp dt : ℝ)
    (hmode : cfg.triggerSettings.mode = .single) :
    (triggerFire r1 r2 cfg s1 timestamp dt).triggerArmed = false ∧
    (triggerFire r1 r2 cfg s1 timestamp dt).isRunning = false := by
  simp only [triggerFire]
  rw [if_pos hmode]
  exact ⟨rfl, rfl⟩

/-- When the tick is eligible and a crossing is found, `animate` takes the
`triggerFire` branch on the phase-advanced state. -/
theorem animate_eq_triggerFire (r1 r2 rt : ℕ → ℝ) (cfg : ScopeConfig)
    (s : ScopeState) (timestamp dt : ℝ)
    (helig : shouldTrigger cfg s.triggerArmed s.lastTriggerTime timestamp = true)
    (hfind : findTriggerTimeOffset rt cfg.channel1 cfg.channel2 cfg.triggerSettings
      cfg.timebaseSettings cfg.divisions cfg.pointsPerDivision
      (tickSourcePhase cfg s) = some dt) :
    animate r1 r2 rt cfg s timestamp
      = triggerFire r1 r2 cfg
          { s with phaseCh1 := tickPhase1 cfg s, phaseCh2 := tickPhase2 cfg s }
          timestamp dt := by
  simp only [animate]
  rw [if_pos helig, hfind]

/-- When the tick is eligible, no crossing is found and mode is auto,
`animate` takes the `autoTimeoutStep` branch on the phase-advanced state. -/
theorem animate_eq_autoTimeoutStep (r1 r2 rt : ℕ → ℝ) (cfg : ScopeConfig)
    (s : ScopeState) (timestamp : ℝ)
    (hmode : cfg.triggerSettings.mode = .auto)
    (helig : shouldTrigger cfg s.triggerArmed s.lastTriggerTime timestamp = true)
    (hfind : findTriggerTimeOffset rt cfg.channel1 cfg.channel2 cfg.triggerSettings
      cfg.timebaseSettings cfg.divisions cfg.pointsPerDivision
      (tickSourcePhase cfg s) = none) :
    animate r1 r2 rt cfg s timestamp
      = autoTimeoutStep r1 r2 cfg
          { s with phaseCh1 := tickPhase1 cfg s, phaseCh2 := tickPhase2 cfg s } := by
  simp only [animate]
  rw [if_pos helig, hfind, hmode]

/-- The wrap step keeps the accumulator at or below `200π` whenever the
per-tick increment itself is: the wrap subtracts `200π` exactly once. -/
theorem advancePhase_le (frequency phase : ℝ) (hf0 : 0 ≤ frequency)
    (hf : frequency ≤ 6000) (hp : phase ≤ 2 * π * 100) :
    advancePhase frequency phase ≤ 2 * π * 100 := by
  simp only [advancePhase]
  have hπ := Real.pi_pos
  have hmul : 0 ≤ π * (6000 - frequency) := mul_nonneg hπ.le (by linarith)
  have hinc : 2 * π * frequency / 60 ≤ 2 * π * 100 := by nlinarith
  have hinc0 : 0 ≤ 2 * π * frequency / 60 := by positivity
  by_cases hcond : 2 * π * 100 < phase + 2 * π * frequency / 60
  · rw [if_pos hcond]
    linarith
  · rw [if_neg hcond]
    linarith [not_lt.mp hcond]

/-! ## Concrete objects used to instantiate the theorems -/

/-- A benign stand-in for the `Math.random()` oracle: every draw is `1/2`
(i.e. the noise perturbation is exactly zero). -/
def halfStream : ℕ → ℝ := fun _ => 1 / 2

/-- A clean unit sine channel: 60 Hz, amplitude 1 V, no offset, no noise. -/
def wsSineUnit : WaveformSettings :=
  { frequency := 60, amplitude := 1, offset := 0,
    waveformType := .sine, noiseLevel := 0 }

def chSineUnit : ChannelSettings :=
  { enabled := true, voltsPerDivision := 1, verticalOffset := 0,
    inputRange := .fiveV, coupling := .DC, probeAttenuation := .oneX,
    waveformSettings := wsSineUnit }

def tbWitness : TimebaseSettings :=
  { timePerDivision := 1 / 100, sampleRate := 1000000 }

/-- Auto-mode trigger whose 5 V level is far outside the unit sine. -/
def trigOut : TriggerSettings :=
  { mode := .auto, edge := .rising, level := 5, holdoff := 0, source := .ch1 }

def cfgAuto : ScopeConfig :=
  { channel1 := chSineUnit, channel2 := DEFAULT_CHANNEL_2,
    timebaseSettings := tbWitness, triggerSettings := trigOut,
    divisions := 10, pointsPerDivision := 100 }

def trigSingle : TriggerSettings :=
  { mode := .single, edge := .rising, level := 0, holdoff := 0, source := .ch1 }

def cfgSingle : ScopeConfig :=
  { channel1 := chSineUnit, channel2 := DEFAULT_CHANNEL_2,
    timebaseSettings := tbWitness, triggerSettings := trigSingle,
    divisions := 10, pointsPerDivision := 100 }

/-- Zero-amplitude sine channel (degenerate normalization denominator). -/
def wsAmpZero : WaveformSettings :=
  { frequency := 60, amplitude := 0, offset := 0,
    waveformType := .sine, noiseLevel := 0.02 }

def chAmpZero : ChannelSettings :=
  { enabled := true, voltsPerDivision := 1, verticalOffset := 0,
    inputRange := .fiveV, coupling := .DC, probeAttenuation := .oneX,
    waveformSettings := wsAmpZero }

def trigLevelOne : TriggerSettings :=
  { mode := .auto, edge := .rising, level := 1, holdoff := 0, source := .ch1 }

def trigZero : TriggerSettings :=
  { mode := .auto, edge := .rising, level := 0, holdoff := 0, source := .ch1 }

/-! ## Claim theorems -/

/-- C7: for every waveform shape, every phase, every `Math.random` stream
and every timebase with positive `divisions` and `pointsPerDivision`,
`generateWaveformAtPhase` returns a buffer of length exactly
`pointsPerDivision * divisions`. -/
theorem synthesize_length (rand : ℕ → ℝ) (ws : WaveformSettings)
    (timebase : TimebaseSettings) (divisions pointsPerDivision : ℕ) (phase : ℝ)
    (hdiv : 0 < divisions) (hppd : 0 < pointsPerDivision) :
    (generateWaveformAtPhase rand ws timebase divisions pointsPerDivision phase).length
      = pointsPerDivision * divisions :=
  generateWaveformAtPhase_length rand ws timebase divisions pointsPerDivision phase

/-- Witness for C7 at the app's concrete parameters. -/
theorem synthesize_length_witness :
    0 < 10 ∧ 0 < 100 ∧
    (generateWaveformAtPhase halfStream DEFAULT_WAVEFORM_CH1 DEFAULT_TIMEBASE
      10 100 0).length = 100 * 10 :=
  ⟨by norm_num, by norm_num,
    synthesize_length halfStream DEFAULT_WAVEFORM_CH1 DEFAULT_TIMEBASE 10 100 0
      (by norm_num) (by norm_num)⟩

/-- C8: a zero-length buffer is a valid input everywhere it can be read:
`calculateMeasurements` returns the all-zero record on the empty buffer,
and both cursor snap functions return the input position unchanged. -/
theorem empty_buffer_defined (timePerDivision : ℝ) (divisions divisions' : ℕ)
    (normalizedX width voltsPerDivision verticalOffset normalizedY height : ℝ) :
    calculateMeasurements [] timePerDivision divisions
        = { vMax := 0, vMin := 0, vPP := 0, vRMS := 0,
            frequency := 0, period := 0, dutyCycle := 0 } ∧
    snapToWaveform [] normalizedX width = normalizedX ∧
    snapToWaveformVoltage [] voltsPerDivision verticalOffset divisions'
        normalizedY height = normalizedY := by
  refine ⟨rfl, ?_, ?_⟩
  · simp [snapToWaveform]
  · simp [snapToWaveformVoltage]

/-- C10: `resetPhase` is idempotent, and the reset state has zero
accumulators and triggered-phase caches, empty frozen buffers, zero
trigger timestamp and no-trigger counter, and is armed. -/
theorem resetPhase_idempotent (s : ScopeState) :
    resetPhase (resetPhase s) = resetPhase s ∧
    (resetPhase s).phaseCh1 = 0 ∧ (resetPhase s).phaseCh2 = 0 ∧
    (resetPhase s).triggeredPhaseCh1 = 0 ∧ (resetPhase s).triggeredPhaseCh2 = 0 ∧
    (resetPhase s).frozenDataCh1 = [] ∧ (resetPhase s).frozenDataCh2 = [] ∧
    (resetPhase s).lastTriggerTime = 0 ∧ (resetPhase s).autoTriggerCounter = 0 ∧
    (resetPhase s).triggerArmed = true :=
  ⟨rfl, rfl, rfl, rfl, rfl, rfl, rfl, rfl, rfl, rfl⟩

/-- C3 (amended): for a sine trigger source *with the noise term disabled*,
a finite normalized level strictly outside `[-1, 1]` makes
`findTriggerTimeOffset` return `none`, for every edge, phase and remaining
trigger parameter.  (With noise enabled this fails: the sampling fallback
scans the noisy buffer and random perturbations can cross the level, see
the counterexample.) -/
theorem sine_out_of_range_none (rt : ℕ → ℝ)
    (channel1 channel2 : ChannelSettings) (triggerSettings : TriggerSettings)
    (timebase : TimebaseSettings) (divisions pointsPerDivision : ℕ)
    (currentPhase nl : ℝ)
    (hshape : (triggerChannel triggerSettings channel1 channel2).waveformSettings.waveformType
      = .sine)
    (hnoise : (triggerChannel triggerSettings channel1 channel2).waveformSettings.noiseLevel = 0)
    (hdiv : jsDiv (triggerSettings.level
        - (triggerChannel triggerSettings channel1 channel2).waveformSettings.offset)
        (triggerChannel triggerSettings channel1 channel2).waveformSettings.amplitude = some nl)
    (hout : nl < -1 ∨ 1 < nl) :
    findTriggerTimeOffset rt channel1 channel2 triggerSettings timebase
      divisions pointsPerDivision currentPhase = none :=
  findTriggerTimeOffset_outRange_none rt channel1 channel2 triggerSettings timebase
    divisions pointsPerDivision currentPhase nl hnoise hdiv hout

/-- Witness for C3 (amended): level 5 V on the noise-free unit sine. -/
theorem sine_out_of_range_none_witness :
    (triggerChannel trigOut chSineUnit DEFAULT_CHANNEL_2).waveformSettings.waveformType
        = WaveformType.sine ∧
    (triggerChannel trigOut chSineUnit DEFAULT_CHANNEL_2).waveformSettings.noiseLevel = 0 ∧
    jsDiv (trigOut.level
        - (triggerChannel trigOut chSineUnit DEFAULT_CHANNEL_2).waveformSettings.offset)
        (triggerChannel trigOut chSineUnit DEFAULT_CHANNEL_2).waveformSettings.amplitude
        = some 5 ∧
    (1 : ℝ) < 5 ∧
    findTriggerTimeOffset halfStream chSineUnit DEFAULT_CHANNEL_2 trigOut tbWitness
      10 100 0 = none := by
  have hdiv : jsDiv (trigOut.level
      - (triggerChannel trigOut chSineUnit DEFAULT_CHANNEL_2).waveformSettings.offset)
      (triggerChannel trigOut chSineUnit DEFAULT_CHANNEL_2).waveformSettings.amplitude
      = some 5 := by
    show jsDiv (5 - 0) 1 = some 5
    unfold jsDiv
    norm_num
  refine ⟨rfl, rfl, hdiv, by norm_num, ?_⟩
  exact sine_out_of_range_none halfStream chSineUnit DEFAULT_CHANNEL_2 trigOut tbWitness
    10 100 0 5 rfl rfl hdiv (Or.inr (by norm_num))

/-- C4 (corrected) counterexample: with amplitude 0 the source's
trigger-level normalization `(level - offset) / amplitude` divides by the
raw, unclamped amplitude, producing a non-finite value (modelled by
`jsDiv = none`), contradicting the claim that every denominator of the
locator is clamped away from zero. -/
theorem normalization_unclamped_counterexample :
    jsDiv ((1 : ℝ) - 0) 0 = none := by
  unfold jsDiv
  rw [if_pos rfl]

/-- C4 (amended): the angular-frequency denominator is clamped
(`2π·max(frequency, 1e-6)` is positive for every frequency), but the
trigger-level normalization is not: with amplitude 0 it yields a
non-finite value; the in-range check then fails, the sampling fallback's
buffer is constant at the offset, and `findTriggerTimeOffset` returns
`none`, so no non-finite value reaches the returned time offset. -/
theorem locator_division_guards (rt : ℕ → ℝ)
    (channel1 channel2 : ChannelSettings) (triggerSettings : TriggerSettings)
    (timebase : TimebaseSettings) (divisions pointsPerDivision : ℕ)
    (currentPhase : ℝ)
    (hshape : (triggerChannel triggerSettings channel1 channel2).waveformSettings.waveformType
      = .sine)
    (hamp : (triggerChannel triggerSettings channel1 channel2).waveformSettings.amplitude = 0) :
    (∀ f : ℝ, 0 < clampedAngularFreq f) ∧
    jsDiv (triggerSettings.level
        - (triggerChannel triggerSettings channel1 channel2).waveformSettings.offset)
        (triggerChannel triggerSettings channel1 channel2).waveformSettings.amplitude = none ∧
    findTriggerTimeOffset rt channel1 channel2 triggerSettings timebase
      divisions pointsPerDivision currentPhase = none := by
  refine ⟨?_, ?_, ?_⟩
  · intro f
    have h1 : (0 : ℝ) < max f 1e-6 := lt_of_lt_of_le (by norm_num) (le_max_right f 1e-6)
    have h2 : (0 : ℝ) < 2 * π := by positivity
    exact mul_pos h2 h1
  · rw [hamp]
    unfold jsDiv
    rw [if_pos rfl]
  · exact findTriggerTimeOffset_amp_zero_none rt channel1 channel2 triggerSettings
      timebase divisions pointsPerDivision currentPhase hamp

/-- Witness for C4 (amended) at the zero-amplitude sine channel. -/
theorem locator_division_guards_witness :
    (triggerChannel trigLevelOne chAmpZero DEFAULT_CHANNEL_2).waveformSettings.waveformType
        = WaveformType.sine ∧
    (triggerChannel trigLevelOne chAmpZero DEFAULT_CHANNEL_2).waveformSettings.amplitude = 0 ∧
    findTriggerTimeOffset halfStream chAmpZero DEFAULT_CHANNEL_2 trigLevelOne tbWitness
      10 100 0 = none :=
  ⟨rfl, rfl,
    (locator_division_guards halfStream chAmpZero DEFAULT_CHANNEL_2 trigLevelOne tbWitness
      10 100 0 rfl rfl).2.2⟩

/-- C6 (amended): for a sine-source trigger computation with finite
in-range normalized level, the adjusted phase offset lies in the *closed*
interval `[-π, π]` (the value `-π` is attained, see the counterexample),
and the returned value is that offset divided by the clamped angular
frequency. -/
theorem sine_phase_offset_range (rt : ℕ → ℝ)
    (channel1 channel2 : ChannelSettings) (triggerSettings : TriggerSettings)
    (timebase : TimebaseSettings) (divisions pointsPerDivision : ℕ)
    (currentPhase nl : ℝ)
    (hshape : (triggerChannel triggerSettings channel1 channel2).waveformSettings.waveformType
      = .sine)
    (hdiv : jsDiv (triggerSettings.level
        - (triggerChannel triggerSettings channel1 channel2).waveformSettings.offset)
        (triggerChannel triggerSettings channel1 channel2).waveformSettings.amplitude = some nl)
    (hin : -1 ≤ nl ∧ nl ≤ 1) :
    -π ≤ normalizePhase (sineTriggerPhase triggerSettings.edge nl
        - jsMod currentPhase (2 * π)) ∧
    normalizePhase (sineTriggerPhase triggerSettings.edge nl
        - jsMod currentPhase (2 * π)) ≤ π ∧
    findTriggerTimeOffset rt channel1 channel2 triggerSettings timebase
        divisions pointsPerDivision currentPhase
      = some (normalizePhase (sineTriggerPhase triggerSettings.edge nl
          - jsMod currentPhase (2 * π))
        / clampedAngularFreq
          (triggerChannel triggerSettings channel1 channel2).waveformSettings.frequency) :=
  ⟨(normalizePhase_mem _).1, (normalizePhase_mem _).2,
    findTriggerTimeOffset_inRange_some rt channel1 channel2 triggerSettings timebase
      divisions pointsPerDivision currentPhase nl hshape hdiv hin⟩

/-- Witness for C6 (amended) at the unit sine with level 0. -/
theorem sine_phase_offset_range_witness :
    (triggerChannel trigZero chSineUnit DEFAULT_CHANNEL_2).waveformSettings.waveformType
        = WaveformType.sine ∧
    jsDiv (trigZero.level
        - (triggerChannel trigZero chSineUnit DEFAULT_CHANNEL_2).waveformSettings.offset)
        (triggerChannel trigZero chSineUnit DEFAULT_CHANNEL_2).waveformSettings.amplitude
        = some 0 ∧
    -π ≤ normalizePhase (sineTriggerPhase trigZero.edge 0 - jsMod 1 (2 * π)) ∧
    normalizePhase (sineTriggerPhase trigZero.edge 0 - jsMod 1 (2 * π)) ≤ π := by
  have hdiv : jsDiv (trigZero.level
      - (triggerChannel trigZero chSineUnit DEFAULT_CHANNEL_2).waveformSettings.offset)
      (triggerChannel trigZero chSineUnit DEFAULT_CHANNEL_2).waveformSettings.amplitude
      = some 0 := by
    show jsDiv (0 - 0) 1 = some 0
    unfold jsDiv
    norm_num
  have h := sine_phase_offset_range halfStream chSineUnit DEFAULT_CHANNEL_2 trigZero
    tbWitness 10 100 1 0 rfl hdiv (by norm_num)
  exact ⟨rfl, hdiv, h.1, h.2.1⟩

/-- C6 (corrected) counterexample: at `currentPhase = π` with trigger level
0 on the unit sine (normalized level 0, rising edge), the adjusted phase
offset is exactly `-π` — not strictly greater than `-π` as claimed — and
`findTriggerTimeOffset` returns `-π / (2π·60) = -1/120` seconds. -/
theorem phase_offset_boundary_counterexample :
    normalizePhase (sineTriggerPhase TriggerEdge.rising 0 - jsMod π (2 * π)) = -π ∧
    ¬ (-π < normalizePhase (sineTriggerPhase TriggerEdge.rising 0 - jsMod π (2 * π))) ∧
    findTriggerTimeOffset halfStream chSineUnit DEFAULT_CHANNEL_2 trigZero tbWitness
      10 100 π = some (-(1 / 120)) := by
  have hπpos := Real.pi_pos
  have hπne := Real.pi_ne_zero
  have hhalf : π / (2 * π) = 1 / 2 := by
    field_simp
    ring
  have htr : truncTowardZero (π / (2 * π)) = 0 := by
    rw [hhalf]
    unfold truncTowardZero
    rw [if_pos (by norm_num)]
    rw [Int.floor_eq_zero_iff]
    constructor <;> norm_num
  have hmod : jsMod π (2 * π) = π := by
    unfold jsMod
    rw [htr]
    push_cast
    ring
  have hstp : sineTriggerPhase TriggerEdge.rising 0 = 0 := by
    unfold sineTriggerPhase
    rw [if_neg (by simp)]
    exact Real.arcsin_zero
  have hnorm : normalizePhase (sineTriggerPhase TriggerEdge.rising 0 - jsMod π (2 * π))
      = -π := by
    rw [hstp, hmod, show (0 : ℝ) - π = -π by ring]
    unfold normalizePhase
    rw [wrapDown_of_le _ (by linarith), wrapUp_of_ge _ (le_refl _)]
  refine ⟨hnorm, by rw [hnorm]; exact lt_irrefl _, ?_⟩
  have hdiv : jsDiv (trigZero.level
      - (triggerChannel trigZero chSineUnit DEFAULT_CHANNEL_2).waveformSettings.offset)
      (triggerChannel trigZero chSineUnit DEFAULT_CHANNEL_2).waveformSettings.amplitude
      = some 0 := by
    show jsDiv (0 - 0) 1 = some 0
    unfold jsDiv
    norm_num
  have h := findTriggerTimeOffset_inRange_some halfStream chSineUnit DEFAULT_CHANNEL_2
    trigZero tbWitness 10 100 π 0 rfl hdiv (by norm_num)
  rw [h]
  have hedge : sineTriggerPhase trigZero.edge 0 = sineTriggerPhase TriggerEdge.rising 0 := rfl
  rw [hedge, hnorm]
  have hfreq : (triggerChannel trigZero chSineUnit DEFAULT_CHANNEL_2).waveformSettings.frequency
      = 60 := rfl
  rw [hfreq]
  have hclamp : clampedAngularFreq 60 = 2 * π * 60 := by
    unfold clampedAngularFreq
    rw [max_eq_left (by norm_num)]
  rw [hclamp]
  congr 1
  rw [div_eq_iff (by positivity)]
  ring

/-! Concrete input for the C3 counterexample: a noisy out-of-range sine.
With frequency 5000 Hz, `timePerDivision = 1/100` s, 10 divisions and 100
points per division, the sample spacing is exactly half a period, so the
noise-free samples alternate between `+1` and `-1`; the random draw at
sample index 2 pushes that sample up to `29/20`, crossing the 6/5 V level
even though the normalized level `6/5` is outside `[-1, 1]`. -/

/-- `Math.random()` draws for the C3 counterexample (all inside `[0, 1)`). -/
def rC3 : ℕ → ℝ := fun i => if i = 2 then 19 / 20 else 1 / 2

def wsC3 : WaveformSettings :=
  { frequency := 5000, amplitude := 1, offset := 0,
    waveformType := .sine, noiseLevel := 1 / 2 }

def chC3 : ChannelSettings :=
  { enabled := true, voltsPerDivision := 1, verticalOffset := 0,
    inputRange := .fiveV, coupling := .DC, probeAttenuation := .oneX,
    waveformSettings := wsC3 }

def trigC3 : TriggerSettings :=
  { mode := .auto, edge := .rising, level := 6 / 5, holdoff := 0, source := .ch1 }

set_option maxRecDepth 8000 in
/-- C3 (corrected) counterexample: with noise enabled (`noiseLevel = 1/2`)
and normalized level `6/5 ∉ [-1, 1]`, `findTriggerTimeOffset` does *not*
return `none`: the sampling fallback finds a noise-induced rising crossing
at sample index 2 and returns `-(2·timeStep) = -1/5000` seconds. -/
theorem sine_out_of_range_noise_counterexample :
    jsDiv (trigC3.level - wsC3.offset) wsC3.amplitude = some (6 / 5) ∧
    ((6 / 5 : ℝ) < -1 ∨ (1 : ℝ) < 6 / 5) ∧
    findTriggerTimeOffset rC3 chC3 DEFAULT_CHANNEL_2 trigC3 tbWitness
      10 100 (π / 2) = some (-(1 / 5000)) := by
  have hjs : jsDiv (trigC3.level - wsC3.offset) wsC3.amplitude = some (6 / 5) := by
    show jsDiv (6 / 5 - 0) 1 = some (6 / 5)
    unfold jsDiv
    norm_num
  refine ⟨hjs, Or.inr (by norm_num), ?_⟩
  have hguard : sineAnalyticOffset
      (triggerChannel trigC3 chC3 DEFAULT_CHANNEL_2).waveformSettings trigC3 (π / 2)
      = none :=
    sineAnalyticOffset_eq_none_of_outRange hjs (Or.inr (by norm_num))
  simp only [findTriggerTimeOffset]
  rw [hguard]
  -- the sampling fallback
  have hlen : (generateWaveformAtPhase rC3
      (triggerChannel trigC3 chC3 DEFAULT_CHANNEL_2).waveformSettings tbWitness
      10 100 (π / 2)).length = 1000 := by
    rw [generateWaveformAtPhase_length]
  rw [hlen]
  -- sample values at indices 0, 1, 2
  have hτ : tbWitness.timePerDivision * ((10 : ℕ) : ℝ) / (((100 * 10 : ℕ) : ℕ) : ℝ)
      = 1 / 10000 := by
    show (1 / 100 : ℝ) * ((10 : ℕ) : ℝ) / (((1000 : ℕ)) : ℝ) = 1 / 10000
    norm_num
  have hsample : ∀ i : ℕ,
      waveformSample rC3 wsC3 (1 / 10000) (π / 2) i
      = Real.sin (π / 2 + π * (i : ℝ)) + (rC3 i - 1 / 2) := by
    intro i
    unfold waveformSample
    rw [if_pos (by norm_num [wsC3])]
    show Real.sin (2 * π * wsC3.frequency * ((i : ℝ) * (1 / 10000))
        + π / 2) * wsC3.amplitude + wsC3.offset
        + (rC3 i - 0.5) * 2 * wsC3.noiseLevel * wsC3.amplitude
      = Real.sin (π / 2 + π * (i : ℝ)) + (rC3 i - 1 / 2)
    have harg : 2 * π * wsC3.frequency * ((i : ℝ) * (1 / 10000)) + π / 2
        = π / 2 + π * (i : ℝ) := by
      show 2 * π * 5000 * ((i : ℝ) * (1 / 10000)) + π / 2 = π / 2 + π * (i : ℝ)
      ring
    rw [harg]
    show Real.sin (π / 2 + π * (i : ℝ)) * 1 + 0 + (rC3 i - 0.5) * 2 * (1 / 2) * 1
      = Real.sin (π / 2 + π * (i : ℝ)) + (rC3 i - 1 / 2)
    rw [show (0.5 : ℝ) = 1 / 2 by norm_num]
    ring
  have hf0 : waveformSample rC3 wsC3 (1 / 10000) (π / 2) 0 = 1 := by
    rw [hsample 0]
    norm_num [Real.sin_pi_div_two, rC3]
  have hf1 : waveformSample rC3 wsC3 (1 / 10000) (π / 2) 1 = -1 := by
    rw [hsample 1]
    have : π / 2 + π * ((1 : ℕ) : ℝ) = π / 2 + π := by push_cast; ring
    rw [this, Real.sin_add_pi, Real.sin_pi_div_two]
    norm_num [rC3]
  have hf2 : waveformSample rC3 wsC3 (1 / 10000) (π / 2) 2 = 29 / 20 := by
    rw [hsample 2]
    have : π / 2 + π * ((2 : ℕ) : ℝ) = π / 2 + 2 * π := by push_cast; ring
    rw [this, Real.sin_add_two_pi, Real.sin_pi_div_two]
    norm_num [rC3]
  -- peel the first three samples off the generated buffer
  have hrest : generateWaveformAtPhase rC3
        (triggerChannel trigC3 chC3 DEFAULT_CHANNEL_2).waveformSettings tbWitness
        10 100 (π / 2)
      = 1 :: -1 :: 29 / 20
          :: (List.range' 3 997).map (waveformSample rC3 wsC3 (1 / 10000) (π / 2)) := by
    show (List.range (100 * 10)).map (waveformSample rC3 wsC3
        (tbWitness.timePerDivision * ((10 : ℕ) : ℝ) / (((100 * 10 : ℕ) : ℕ) : ℝ))
        (π / 2)) = _
    rw [hτ, show (100 * 10 : ℕ) = 997 + 3 by norm_num, map_range_peel3, hf0, hf1, hf2]
  rw [hrest]
  -- run the scan: pair (1, -1) is not a crossing, pair (-1, 29/20) is
  have hnc1 : ¬ isCrossing trigC3.edge trigC3.level 1 (-1) := by
    show ¬ isCrossing TriggerEdge.rising (6 / 5) 1 (-1)
    unfold isCrossing
    rintro (⟨_, _, h⟩ | ⟨h, _, _⟩)
    · norm_num at h
    · exact absurd h (by simp)
  have hc2 : isCrossing trigC3.edge trigC3.level (-1) (29 / 20) := by
    show isCrossing TriggerEdge.rising (6 / 5) (-1) (29 / 20)
    exact Or.inl ⟨rfl, by norm_num, by norm_num⟩
  rw [scanForCrossing_cons, if_neg hnc1, scanForCrossing_cons, if_pos hc2]
  show some (-(((1 + 1 : ℕ) : ℝ)
      * (tbWitness.timePerDivision * ((10 : ℕ) : ℝ) / ((1000 : ℕ) : ℝ))))
    = some (-(1 / 5000))
  congr 1
  show -(((2 : ℕ) : ℝ) * ((1 / 100 : ℝ) * ((10 : ℕ) : ℝ) / ((1000 : ℕ) : ℝ))) = -(1 / 5000)
  norm_num

/-- C1: in single mode, on a tick where a trigger crossing is found,
`animate` disarms and stops; no further tick can pass the trigger gate
while disarmed; and `armTrigger` re-arms and, in single mode when stopped,
resumes running. -/
theorem single_mode_trigger_latch (r1 r2 rt : ℕ → ℝ) (cfg : ScopeConfig)
    (s : ScopeState) (timestamp dt : ℝ)
    (hmode : cfg.triggerSettings.mode = .single)
    (helig : shouldTrigger cfg s.triggerArmed s.lastTriggerTime timestamp = true)
    (hfind : findTriggerTimeOffset rt cfg.channel1 cfg.channel2 cfg.triggerSettings
      cfg.timebaseSettings cfg.divisions cfg.pointsPerDivision
      (tickSourcePhase cfg s) = some dt) :
    (animate r1 r2 rt cfg s timestamp).triggerArmed = false ∧
    (animate r1 r2 rt cfg s timestamp).isRunning = false ∧
    (∀ (armed : Bool) (lastTriggerTime currentTime : ℝ), armed = false →
      shouldTrigger cfg armed lastTriggerTime currentTime = false) ∧
    (∀ s' : ScopeState,
      (armTrigger cfg.triggerSettings.mode s').triggerArmed = true ∧
      (s'.isRunning = false → (armTrigger cfg.triggerSettings.mode s').isRunning = true)) := by
  have hbranch := animate_eq_triggerFire r1 r2 rt cfg s timestamp dt helig hfind
  have hlatch := triggerFire_single_latch r1 r2 cfg
    { s with phaseCh1 := tickPhase1 cfg s, phaseCh2 := tickPhase2 cfg s }
    timestamp dt hmode
  refine ⟨by rw [hbranch]; exact hlatch.1, by rw [hbranch]; exact hlatch.2, ?_, ?_⟩
  · intro armed lastTriggerTime currentTime harm
    unfold shouldTrigger
    by_cases h1 : 0 < cfg.triggerSettings.holdoff ∧
        currentTime - lastTriggerTime < cfg.triggerSettings.holdoff * 1000
    · rw [if_pos h1]
    · rw [if_neg h1, if_pos ⟨hmode, harm⟩]
  · intro s'
    constructor
    · simp only [armTrigger]
      split <;> rfl
    · intro hrun
      simp only [armTrigger]
      rw [if_pos ⟨hrun, hmode⟩]

/-- Witness for C1: single mode, unit sine, level 0 — the analytic branch
finds a crossing on the first tick and the machine disarms and stops. -/
theorem single_mode_trigger_latch_witness :
    cfgSingle.triggerSettings.mode = TriggerMode.single ∧
    shouldTrigger cfgSingle initialState.triggerArmed initialState.lastTriggerTime 0
        = true ∧
    (animate halfStream halfStream halfStream cfgSingle initialState 0).triggerArmed
        = false ∧
    (animate halfStream halfStream halfStream cfgSingle initialState 0).isRunning
        = false := by
  have helig : shouldTrigger cfgSingle initialState.triggerArmed
      initialState.lastTriggerTime 0 = true := by
    unfold shouldTrigger
    rw [if_neg, if_neg]
    · rintro ⟨_, h⟩
      exact absurd h (by simp [initialState])
    · rintro ⟨h, _⟩
      exact absurd h (lt_irrefl 0)
  have hdiv : jsDiv (trigSingle.level
      - (triggerChannel trigSingle chSineUnit DEFAULT_CHANNEL_2).waveformSettings.offset)
      (triggerChannel trigSingle chSineUnit DEFAULT_CHANNEL_2).waveformSettings.amplitude
      = some 0 := by
    show jsDiv (0 - 0) 1 = some 0
    unfold jsDiv
    norm_num
  have hfind := findTriggerTimeOffset_inRange_some halfStream chSineUnit DEFAULT_CHANNEL_2
    trigSingle tbWitness 10 100 (tickSourcePhase cfgSingle initialState) 0 rfl hdiv
    (by norm_num)
  have h := single_mode_trigger_latch halfStream halfStream halfStream cfgSingle
    initialState 0 _ rfl helig hfind
  exact ⟨rfl, helig, h.1, h.2.1⟩

/-- C2: on a trigger-eligible auto-mode tick with no crossing, the
no-trigger counter is incremented; on the tick where it exceeds 30, buffers
for each enabled channel are synthesized at the raw (untriggered)
accumulator phase and published, `isTriggered` is cleared and the counter is
reset to zero. -/
theorem auto_mode_timeout_publish (r1 r2 rt : ℕ → ℝ) (cfg : ScopeConfig)
    (s : ScopeState) (timestamp : ℝ)
    (hmode : cfg.triggerSettings.mode = .auto)
    (helig : shouldTrigger cfg s.triggerArmed s.lastTriggerTime timestamp = true)
    (hfind : findTriggerTimeOffset rt cfg.channel1 cfg.channel2 cfg.triggerSettings
      cfg.timebaseSettings cfg.divisions cfg.pointsPerDivision
      (tickSourcePhase cfg s) = none) :
    (s.autoTriggerCounter + 1 ≤ 30 →
      (animate r1 r2 rt cfg s timestamp).autoTriggerCounter = s.autoTriggerCounter + 1 ∧
      (animate r1 r2 rt cfg s timestamp).waveformDataCh1 = s.waveformDataCh1 ∧
      (animate r1 r2 rt cfg s timestamp).waveformDataCh2 = s.waveformDataCh2 ∧
      (animate r1 r2 rt cfg s timestamp).isTriggered = s.isTriggered) ∧
    (30 < s.autoTriggerCounter + 1 →
      (animate r1 r2 rt cfg s timestamp).waveformDataCh1
        = (if cfg.channel1.enabled then
            generateWaveformAtPhase r1 cfg.channel1.waveformSettings
              cfg.timebaseSettings cfg.divisions cfg.pointsPerDivision
              (tickPhase1 cfg s)
          else []) ∧
      (animate r1 r2 rt cfg s timestamp).waveformDataCh2
        = (if cfg.channel2.enabled then
            generateWaveformAtPhase r2 cfg.channel2.waveformSettings
              cfg.timebaseSettings cfg.divisions cfg.pointsPerDivision
              (tickPhase2 cfg s)
          else []) ∧
      (animate r1 r2 rt cfg s timestamp).isTriggered = false ∧
      (animate r1 r2 rt cfg s timestamp).autoTriggerCounter = 0) := by
  have hbranch := animate_eq_autoTimeoutStep r1 r2 rt cfg s timestamp hmode helig hfind
  rw [hbranch]
  constructor
  · intro hc
    have hno : ¬ (30 < s.autoTriggerCounter + 1) := by omega
    simp only [autoTimeoutStep]
    rw [if_neg hno]
    exact ⟨rfl, rfl, rfl, rfl⟩
  · intro hc
    simp only [autoTimeoutStep]
    rw [if_pos hc]
    exact ⟨rfl, rfl, rfl, rfl⟩

/-- Witness for C2: auto mode, trigger level 5 V on the noise-free unit
sine (no crossing ever). -/
theorem auto_mode_timeout_publish_witness :
    cfgAuto.triggerSettings.mode = TriggerMode.auto ∧
    shouldTrigger cfgAuto initialState.triggerArmed initialState.lastTriggerTime 0
        = true ∧
    findTriggerTimeOffset halfStream cfgAuto.channel1 cfgAuto.channel2
      cfgAuto.triggerSettings cfgAuto.timebaseSettings cfgAuto.divisions
      cfgAuto.pointsPerDivision (tickSourcePhase cfgAuto initialState) = none ∧
    (initialState.autoTriggerCounter + 1 ≤ 30 →
      (animate halfStream halfStream halfStream cfgAuto initialState 0).autoTriggerCounter
        = initialState.autoTriggerCounter + 1) := by
  have helig : shouldTrigger cfgAuto initialState.triggerArmed
      initialState.lastTriggerTime 0 = true := by
    unfold shouldTrigger
    rw [if_neg, if_neg]
    · rintro ⟨h, _⟩
      simp [cfgAuto, trigOut] at h
    · rintro ⟨h, _⟩
      exact absurd h (lt_irrefl 0)
  have hdiv : jsDiv (trigOut.level
      - (triggerChannel trigOut chSineUnit DEFAULT_CHANNEL_2).waveformSettings.offset)
      (triggerChannel trigOut chSineUnit DEFAULT_CHANNEL_2).waveformSettings.amplitude
      = some 5 := by
    show jsDiv (5 - 0) 1 = some 5
    unfold jsDiv
    norm_num
  have hfind := findTriggerTimeOffset_outRange_none halfStream chSineUnit
    DEFAULT_CHANNEL_2 trigOut tbWitness 10 100 (tickSourcePhase cfgAuto initialState)
    5 rfl hdiv (Or.inr (by norm_num))
  have h := auto_mode_timeout_publish halfStream halfStream halfStream cfgAuto
    initialState 0 rfl helig hfind
  exact ⟨rfl, helig, hfind, fun hc => (h.1 hc).1⟩

/-- C9: an eligible auto-mode tick with no crossing — in particular the
counter-exceeded timeout publish — leaves both frozen per-channel buffers
unchanged; the frozen buffers are written only in the crossing-found
branch. -/
theorem auto_timeout_frozen_preserved (r1 r2 rt : ℕ → ℝ) (cfg : ScopeConfig)
    (s : ScopeState) (timestamp : ℝ)
    (hmode : cfg.triggerSettings.mode = .auto)
    (helig : shouldTrigger cfg s.triggerArmed s.lastTriggerTime timestamp = true)
    (hfind : findTriggerTimeOffset rt cfg.channel1 cfg.channel2 cfg.triggerSettings
      cfg.timebaseSettings cfg.divisions cfg.pointsPerDivision
      (tickSourcePhase cfg s) = none) :
    (animate r1 r2 rt cfg s timestamp).frozenDataCh1 = s.frozenDataCh1 ∧
    (animate r1 r2 rt cfg s timestamp).frozenDataCh2 = s.frozenDataCh2 := by
  have hbranch := animate_eq_autoTimeoutStep r1 r2 rt cfg s timestamp hmode helig hfind
  rw [hbranch]
  simp only [autoTimeoutStep]
  split <;> exact ⟨rfl, rfl⟩

/-- Witness for C9 at the same auto-mode no-crossing configuration. -/
theorem auto_timeout_frozen_preserved_witness :
    cfgAuto.triggerSettings.mode = TriggerMode.auto ∧
    (animate halfStream halfStream halfStream cfgAuto initialState 0).frozenDataCh1
        = initialState.frozenDataCh1 ∧
    (animate halfStream halfStream halfStream cfgAuto initialState 0).frozenDataCh2
        = initialState.frozenDataCh2 := by
  have helig : shouldTrigger cfgAuto initialState.triggerArmed
      initialState.lastTriggerTime 0 = true := by
    unfold shouldTrigger
    rw [if_neg, if_neg]
    · rintro ⟨h, _⟩
      simp [cfgAuto, trigOut] at h
    · rintro ⟨h, _⟩
      exact absurd h (lt_irrefl 0)
  have hdiv : jsDiv (trigOut.level
      - (triggerChannel trigOut chSineUnit DEFAULT_CHANNEL_2).waveformSettings.offset)
      (triggerChannel trigOut chSineUnit DEFAULT_CHANNEL_2).waveformSettings.amplitude
      = some 5 := by
    show jsDiv (5 - 0) 1 = some 5
    unfold jsDiv
    norm_num
  have hfind := findTriggerTimeOffset_outRange_none halfStream chSineUnit
    DEFAULT_CHANNEL_2 trigOut tbWitness 10 100 (tickSourcePhase cfgAuto initialState)
    5 rfl hdiv (Or.inr (by norm_num))
  have h := auto_timeout_frozen_preserved halfStream halfStream halfStream cfgAuto
    initialState 0 rfl helig hfind
  exact ⟨rfl, h.1, h.2⟩

def cfgDefault : ScopeConfig :=
  { channel1 := DEFAULT_CHANNEL_1, channel2 := DEFAULT_CHANNEL_2,
    timebaseSettings := DEFAULT_TIMEBASE, triggerSettings := DEFAULT_TRIGGER,
    divisions := 10, pointsPerDivision := 100 }

/-- The default configuration with the channel-1 frequency raised to the
configuration UI's maximum of `10^5` Hz (log-slider maximum 5). -/
def cfgFast : ScopeConfig :=
  { channel1 :=
      { DEFAULT_CHANNEL_1 with
        waveformSettings := { DEFAULT_WAVEFORM_CH1 with frequency := 100000 } },
    channel2 := DEFAULT_CHANNEL_2,
    timebaseSettings := DEFAULT_TIMEBASE, triggerSettings := DEFAULT_TRIGGER,
    divisions := 10, pointsPerDivision := 100 }

/-- C5 (amended): the wrap step bounds each accumulator by `200π` only when
that channel's per-tick increment `2π·frequency/60` is itself at most
`200π`, i.e. for frequencies up to 6000 Hz; under that bound every tick
preserves the invariant for both channels. -/
theorem phase_wrap_bounded (r1 r2 rt : ℕ → ℝ) (cfg : ScopeConfig)
    (s : ScopeState) (timestamp : ℝ)
    (h1a : 0 ≤ cfg.channel1.waveformSettings.frequency)
    (h1b : cfg.channel1.waveformSettings.frequency ≤ 6000)
    (h2a : 0 ≤ cfg.channel2.waveformSettings.frequency)
    (h2b : cfg.channel2.waveformSettings.frequency ≤ 6000)
    (hp1 : s.phaseCh1 ≤ 2 * π * 100)
    (hp2 : s.phaseCh2 ≤ 2 * π * 100) :
    (animate r1 r2 rt cfg s timestamp).phaseCh1 ≤ 2 * π * 100 ∧
    (animate r1 r2 rt cfg s timestamp).phaseCh2 ≤ 2 * π * 100 := by
  rw [animate_phaseCh1, animate_phaseCh2]
  exact ⟨advancePhase_le _ _ h1a h1b hp1, advancePhase_le _ _ h2a h2b hp2⟩

/-- Witness for C5 (amended) at the default configuration (1 kHz / 2 kHz). -/
theorem phase_wrap_bounded_witness :
    (0 : ℝ) ≤ cfgDefault.channel1.waveformSettings.frequency ∧
    cfgDefault.channel1.waveformSettings.frequency ≤ 6000 ∧
    initialState.phaseCh1 ≤ 2 * π * 100 ∧
    (animate halfStream halfStream halfStream cfgDefault initialState 0).phaseCh1
      ≤ 2 * π * 100 ∧
    (animate halfStream halfStream halfStream cfgDefault initialState 0).phaseCh2
      ≤ 2 * π * 100 := by
  have hπ := Real.pi_pos
  have h1a : (0 : ℝ) ≤ cfgDefault.channel1.waveformSettings.frequency := by
    show (0 : ℝ) ≤ 1000
    norm_num
  have h1b : cfgDefault.channel1.waveformSettings.frequency ≤ 6000 := by
    show (1000 : ℝ) ≤ 6000
    norm_num
  have h2a : (0 : ℝ) ≤ cfgDefault.channel2.waveformSettings.frequency := by
    show (0 : ℝ) ≤ 2000
    norm_num
  have h2b : cfgDefault.channel2.waveformSettings.frequency ≤ 6000 := by
    show (2000 : ℝ) ≤ 6000
    norm_num
  have hp1 : initialState.phaseCh1 ≤ 2 * π * 100 := by
    show (0 : ℝ) ≤ 2 * π * 100
    positivity
  have hp2 : initialState.phaseCh2 ≤ 2 * π * 100 := by
    show (0 : ℝ) ≤ 2 * π * 100
    positivity
  have h := phase_wrap_bounded halfStream halfStream halfStream cfgDefault
    initialState 0 h1a h1b h2a h2b hp1 hp2
  exact ⟨h1a, h1b, hp1, h.1, h.2⟩

/-- C5 (corrected) counterexample: at the UI's maximum frequency of
`10^5` Hz the per-tick increment is `2π·100000/60 > 200π`; starting from
the initial (zero) accumulator, a single tick leaves the channel-1
accumulator at `10000π/3 - 200π = 9400π/3 > 200π` even after the wrap
step — the claimed bound fails for a reachable state and an allowed
frequency. -/
theorem phase_wrap_exceeded_counterexample :
    2 * π * 100
      < (animate halfStream halfStream halfStream cfgFast initialState 0).phaseCh1 := by
  rw [animate_phaseCh1]
  show 2 * π * 100 < advancePhase 100000 0
  simp only [advancePhase]
  have hπ := Real.pi_pos
  rw [if_pos (by linarith)]
  linarith

end








